import Mathlib

/-!
Shallow embedding of `bugzilla/bugzilla4.py` (the Bugzilla 4.x protocol
adapter) and proofs about its field-translation logic.

Python values are modelled by the inductive `PyVal`; Python dictionaries by
association lists with the key-replacing insert `dinsert`, lookup `dlookup`
and deletion `derase`.  Python runtime errors (TypeError, ValueError,
KeyError, AttributeError) and the adapter's own `NeedParamError` are modelled
by `Except PyErr`.  Each adapter method is translated into a pure function
from its arguments (and, where it consumes a remote response, from that
response) to the outgoing parameter mapping it sends to the RPC proxy and/or
the value it returns.
-/

namespace Bugzilla4

/-- Model of the Python values that flow through the adapter: `None`, bools,
ints, strings, lists, and string-keyed dicts. -/
inductive PyVal where
  | pnone : PyVal
  | pbool : Bool → PyVal
  | pint : Int → PyVal
  | pstr : String → PyVal
  | plist : List PyVal → PyVal
  | pdict : List (String × PyVal) → PyVal

/-- Model of the errors the adapter code can raise: Python's TypeError,
ValueError, KeyError and AttributeError, plus the adapter's own
`bugzilla.base.NeedParamError`. -/
inductive PyErr where
  | typeError : PyErr
  | valueError : PyErr
  | keyError : PyErr
  | attributeError : PyErr
  | needParam : PyErr
deriving DecidableEq

mutual

/-- Python equality `==` on modelled values (bools compare equal to the
corresponding ints, as in Python). -/
def pyEq : PyVal → PyVal → Bool
  | .pnone, .pnone => true
  | .pbool a, .pbool b => a == b
  | .pbool a, .pint b => (if a then (1 : Int) else 0) == b
  | .pint a, .pbool b => a == (if b then (1 : Int) else 0)
  | .pint a, .pint b => a == b
  | .pstr a, .pstr b => a == b
  | .plist a, .plist b => pyEqList a b
  | .pdict a, .pdict b => pyEqDict a b
  | _, _ => false

/-- Elementwise Python equality of lists. -/
def pyEqList : List PyVal → List PyVal → Bool
  | [], [] => true
  | a :: as_, b :: bs => pyEq a b && pyEqList as_ bs
  | _, _ => false

/-- Python equality of dicts, modelled on the association lists (the adapter
never actually compares two dicts, so binding order sensitivity is moot). -/
def pyEqDict : List (String × PyVal) → List (String × PyVal) → Bool
  | [], [] => true
  | a :: as_, b :: bs => (a.1 == b.1 && pyEq a.2 b.2) && pyEqDict as_ bs
  | _, _ => false

end

/-- Python dict lookup `d[k]` / `d.get(k)` / `k in d` on an association list
(bindings are unique in a real Python dict, the first one wins here). -/
def dlookup {κ α : Type} [DecidableEq κ] : List (κ × α) → κ → Option α
  | [], _ => none
  | p :: t, k => if p.1 = k then some p.2 else dlookup t k

/-- Python dict assignment `d[k] = v`: replace the first binding of `k` in
place if there is one, otherwise append a new binding. -/
def dinsert {κ α : Type} [DecidableEq κ] : List (κ × α) → κ → α → List (κ × α)
  | [], k, v => [(k, v)]
  | p :: t, k, v => if p.1 = k then (k, v) :: t else p :: dinsert t k v

/-- Python dict deletion `del d[k]`. -/
def derase {κ α : Type} [DecidableEq κ] (d : List (κ × α)) (k : κ) :
    List (κ × α) :=
  d.filter (fun p => p.1 ≠ k)

theorem dlookup_dinsert_self {κ α : Type} [DecidableEq κ]
    (d : List (κ × α)) (k : κ) (v : α) :
    dlookup (dinsert d k v) k = some v := by
  induction d with
  | nil => simp [dinsert, dlookup]
  | cons p t ih =>
    by_cases hp : p.1 = k
    · simp [dinsert, hp, dlookup]
    · simp [dinsert, hp, dlookup, ih]

theorem dlookup_dinsert_ne {κ α : Type} [DecidableEq κ]
    (d : List (κ × α)) (k k' : κ) (v : α) (hne : k' ≠ k) :
    dlookup (dinsert d k v) k' = dlookup d k' := by
  induction d with
  | nil => simp [dinsert, dlookup, Ne.symm hne]
  | cons p t ih =>
    by_cases hp : p.1 = k
    · have hp' : ¬ k = k' := Ne.symm hne
      simp [dinsert, hp, dlookup, hp', hp ▸ hp']
    · simp only [dinsert]
      rw [if_neg hp]
      simp only [dlookup]
      by_cases hq : p.1 = k'
      · rw [if_pos hq, if_pos hq]
      · rw [if_neg hq, if_neg hq]
        exact ih

theorem derase_cons_eq {κ α : Type} [DecidableEq κ]
    (p : κ × α) (t : List (κ × α)) (k : κ) (hp : p.1 = k) :
    derase (p :: t) k = derase t k := by
  simp [derase, List.filter_cons, hp]

theorem derase_cons_ne {κ α : Type} [DecidableEq κ]
    (p : κ × α) (t : List (κ × α)) (k : κ) (hp : ¬ p.1 = k) :
    derase (p :: t) k = p :: derase t k := by
  simp [derase, List.filter_cons, hp]

theorem dlookup_derase_self {κ α : Type} [DecidableEq κ]
    (d : List (κ × α)) (k : κ) :
    dlookup (derase d k) k = none := by
  induction d with
  | nil => simp [derase, dlookup]
  | cons p t ih =>
    by_cases hp : p.1 = k
    · rw [derase_cons_eq p t k hp]
      exact ih
    · rw [derase_cons_ne p t k hp]
      simp only [dlookup]
      rw [if_neg hp]
      exact ih

theorem dlookup_derase_ne {κ α : Type} [DecidableEq κ]
    (d : List (κ × α)) (k k' : κ) (hne : k' ≠ k) :
    dlookup (derase d k) k' = dlookup d k' := by
  induction d with
  | nil => simp [derase]
  | cons p t ih =>
    by_cases hp : p.1 = k
    · have hq : ¬ p.1 = k' := by rw [hp]; exact Ne.symm hne
      rw [derase_cons_eq p t k hp]
      simp only [dlookup]
      rw [if_neg hq]
      exact ih
    · rw [derase_cons_ne p t k hp]
      simp only [dlookup]
      by_cases hq : p.1 = k'
      · rw [if_pos hq, if_pos hq]
      · rw [if_neg hq, if_neg hq]
        exact ih

mutual

/-- Python `repr` of a modelled value (string escaping inside `repr` of a
string is simplified to plain quoting; the adapter only ever stringifies
ints and plain strings). -/
def pyRepr : PyVal → String
  | .pnone => "None"
  | .pbool b => if b then "True" else "False"
  | .pint n => toString n
  | .pstr s => "\x27" ++ s ++ "\x27"
  | .plist l => "[" ++ String.intercalate ", " (pyReprList l) ++ "]"
  | .pdict d => "\x7b" ++ String.intercalate ", " (pyReprDict d) ++ "\x7d"

/-- Elementwise `repr` over a list. -/
def pyReprList : List PyVal → List String
  | [] => []
  | v :: t => pyRepr v :: pyReprList t

/-- Entrywise `repr` over a dict's bindings. -/
def pyReprDict : List (String × PyVal) → List String
  | [] => []
  | p :: t => ("\x27" ++ p.1 ++ "\x27: " ++ pyRepr p.2) :: pyReprDict t

end

/-- Python `str` of a modelled value, as used by `%s` formatting and by
`str` in `','.join(map(str, bug['blocks']))`. -/
def pyStr : PyVal → String
  | .pstr s => s
  | v => pyRepr v

/-- Python truthiness, as used by `if ids:` in `_getusers`. -/
def pyTruthy : PyVal → Bool
  | .pnone => false
  | .pbool b => b
  | .pint n => n != 0
  | .pstr s => !s.isEmpty
  | .plist l => !l.isEmpty
  | .pdict d => !d.isEmpty

/-- Python `s.split(sep)` for a one-character separator, on the character
list: every occurrence splits, empty pieces are kept. -/
def splitCharAux (sep : Char) : List Char → List (List Char)
  | [] => [[]]
  | c :: t =>
    match splitCharAux sep t with
    | [] => [[c]]
    | h :: r => if c = sep then [] :: h :: r else (c :: h) :: r

/-- Python `s.split(sep)` for a one-character separator (`split(',')` in
`_query`). -/
def pyStrSplit (s : String) (sep : Char) : List String :=
  (splitCharAux sep s.data).map (fun l => String.mk l)

/-- Drop leading whitespace from a character list. -/
def trimLeading : List Char → List Char
  | [] => []
  | c :: t => if c.isWhitespace then trimLeading t else c :: t

/-- Run of decimal digits to its value (ValueError on any non-digit). -/
def digitsValAux : List Char → Nat → Option Nat
  | [], acc => some acc
  | c :: t, acc =>
    if c.isDigit then digitsValAux t (acc * 10 + (c.toNat - 48)) else none

/-- Nonempty run of decimal digits to its value. -/
def parseDigits : List Char → Option Nat
  | [] => none
  | l => digitsValAux l 0

/-- Signed decimal numeral. -/
def pyIntParse : List Char → Option Int
  | '-' :: t => (parseDigits t).map (fun n => -(n : Int))
  | '+' :: t => (parseDigits t).map (fun n => (n : Int))
  | l => (parseDigits l).map (fun n => (n : Int))

/-- Python `int(s)` on a string: optional surrounding whitespace, optional
sign, decimal digits; anything else raises ValueError. -/
def pyStrToInt (s : String) : Option Int :=
  let t := trimLeading s.data
  let t := (trimLeading t.reverse).reverse
  pyIntParse t

/-- Python `int(v)`: ints and bools convert, strings parse (ValueError on a
malformed string), everything else is a TypeError. -/
def pyToInt : PyVal → Except PyErr Int
  | .pint n => .ok n
  | .pbool b => .ok (if b then 1 else 0)
  | .pstr s =>
    match pyStrToInt s with
    | some n => .ok n
    | none => .error .valueError
  | _ => .error .typeError

/-- A bug record: a mapping from field name to value, as returned by the
remote service. -/
abbrev BugRec := List (String × PyVal)

/-- Translation of `idlist = map(lambda i: int(i), idlist)` in `_getbugs`:
convert every id to an int, propagating the first conversion error. -/
def mapIntList : List PyVal → Except PyErr (List Int)
  | [] => .ok []
  | x :: t =>
    match pyToInt x with
    | .error e => .error e
    | .ok n =>
      match mapIntList t with
      | .error e => .error e
      | .ok ns => .ok (n :: ns)

/-- Translation of `dict([(b['id'], b) for b in r['bugs']])`: pair every
returned bug record with its `id` field (KeyError if a record lacks one). -/
def buildBugPairs : List BugRec → Except PyErr (List (PyVal × BugRec))
  | [] => .ok []
  | b :: t =>
    match dlookup b "id" with
    | none => .error .keyError
    | some k =>
      match buildBugPairs t with
      | .error e => .error e
      | .ok ps => .ok ((k, b) :: ps)

/-- Python `dict(pairs).get(k)`: the last pair whose key compares `==` to
`k` wins, `None` (here `Option.none`) when there is no such pair. -/
def pyDictGet {α : Type} (pairs : List (α × BugRec)) (eq : α → α → Bool)
    (k : α) : Option BugRec :=
  (pairs.reverse.find? (fun p => eq p.1 k)).map Prod.snd

/-- Translation of `Bugzilla4._getbugs`: convert the ids to ints, key the
response's bug records by their `id`, and return the records aligned to the
original id order with `None` (`Option.none`) for ids the service did not
return.  `bugs` stands for `r['bugs']`, the record list of the remote
response to `Bug.get_bugs({'ids': idlist, 'permissive': 1})`. -/
def _getbugs (idlist : List PyVal) (bugs : List BugRec) :
    Except PyErr (List (Option BugRec)) :=
  match mapIntList idlist with
  | .error e => .error e
  | .ok ids =>
    match buildBugPairs bugs with
    | .error e => .error e
    | .ok pairs => .ok (ids.map (fun i => pyDictGet pairs pyEq (.pint i)))

/-- Translation of `Bugzilla4._addcomment`: the parameter mapping passed to
`self._proxy.Bug.add_comment`.  The `timestamp` and `bz_gid` arguments are
accepted but never placed in the mapping. -/
def _addcomment (id comment : PyVal) (priv : Bool)
    (timestamp worktime bz_gid : PyVal) : List (String × PyVal) :=
  [("id", id), ("comment", comment), ("private", .pbool priv),
   ("work_time", worktime)]

/-- Translation of `Bugzilla4._getusers`: build the parameter mapping from
the truthy arguments among `ids`, `names`, `match`; raise `NeedParamError`
when the mapping stays empty.  An `Except.ok` result is the mapping handed
to `self._proxy.User.get`; `Except.error .needParam` means the exception was
raised before any remote call. -/
def _getusers (ids names match_arg : PyVal) :
    Except PyErr (List (String × PyVal)) :=
  let params : List (String × PyVal) := []
  let params := if pyTruthy ids then dinsert params "ids" ids else params
  let params := if pyTruthy names then dinsert params "names" names else params
  let params := if pyTruthy match_arg then dinsert params "match" match_arg
    else params
  if params.isEmpty then .error .needParam else .ok params

/-- Translation of `tmp = [f['name'] for f in r['fields']]` in
`_getbugfields` (KeyError if a field record lacks `name`). -/
def extractFieldNames : List (List (String × PyVal)) → Except PyErr (List PyVal)
  | [] => .ok []
  | f :: t =>
    match dlookup f "name" with
    | none => .error .keyError
    | some n =>
      match extractFieldNames t with
      | .error e => .error e
      | .ok ns => .ok (n :: ns)

/-- Translation of `Bugzilla4._getbugfields`: the field names of the remote
response to `Bug.fields({'include_fields': ['name']})` with `'blockedby'`
appended.  `fields` stands for `r['fields']`. -/
def _getbugfields (fields : List (List (String × PyVal))) :
    Except PyErr (List PyVal) :=
  match extractFieldNames fields with
  | .error e => .error e
  | .ok tmp => .ok (tmp ++ [.pstr "blockedby"])

/-- Python `needle in haystack` where `needle` is a string: list membership
by `==`, substring test on a string, key membership on a dict, TypeError on
the rest. -/
def pyContainsStr (v : PyVal) (needle : String) : Except PyErr Bool :=
  match v with
  | .plist l => .ok (l.any (fun x => pyEq x (.pstr needle)))
  | .pstr s => .ok (needle.isEmpty || (s.splitOn needle).length != 1)
  | .pdict d => .ok ((d.map Prod.fst).contains needle)
  | _ => .error .typeError

/-- Python `l.remove(x)` for a string `x`: drop the first element comparing
`==` to `x` (the caller below only invokes it when containment holds). -/
def pyRemoveStr : List PyVal → String → List PyVal
  | [], _ => []
  | v :: t, x => if pyEq v (.pstr x) then t else v :: pyRemoveStr t x

/-- Translation of one `include_fields` substitution in `_query`:
`if old in v: v.remove(old); v.append(new)`.  `.remove`/`.append` on a
non-list raises AttributeError. -/
def ifSubst (v : PyVal) (old new : String) : Except PyErr PyVal :=
  match pyContainsStr v old with
  | .error e => .error e
  | .ok c =>
    if c then
      match v with
      | .plist l => .ok (.plist (pyRemoveStr l old ++ [.pstr new]))
      | _ => .error .attributeError
    else .ok v

/-- Translation of the two `include_fields` rewrites in `_query`:
`blockedby` becomes `blocks`, then `bug_id` becomes `id`. -/
def normIncludeFields (v : PyVal) : Except PyErr PyVal :=
  match ifSubst v "blockedby" "blocks" with
  | .error e => .error e
  | .ok v₁ => ifSubst v₁ "bug_id" "id"

/-- Translation of `query['bug_id'].split(',')` versus the pass-through for
a list-valued `bug_id` (any other type lacks `.split`: AttributeError). -/
def bugIdToList (v : PyVal) : Except PyErr PyVal :=
  match v with
  | .plist l => .ok (.plist l)
  | .pstr s => .ok (.plist ((pyStrSplit s ',').map .pstr))
  | _ => .error .attributeError

/-- Stage 1 of `_query`: the `if 'bug_id' in query:` block — store the
normalized id list under `id` and delete `bug_id`. -/
def queryStage1 (query : List (String × PyVal)) :
    Except PyErr (List (String × PyVal)) :=
  match dlookup query "bug_id" with
  | none => .ok query
  | some v =>
    match bugIdToList v with
    | .error e => .error e
    | .ok idv => .ok (derase (dinsert query "id" idv) "bug_id")

/-- Stage 2 of `_query`: `query['include_fields'] = list()`. -/
def queryStage2 (query : List (String × PyVal)) : List (String × PyVal) :=
  dinsert query "include_fields" (.plist [])

/-- Stage 3 of `_query`: the `if 'column_list' in query:` block — move the
`column_list` value into `include_fields` and delete `column_list`. -/
def queryStage3 (query : List (String × PyVal)) : List (String × PyVal) :=
  match dlookup query "column_list" with
  | none => query
  | some v => derase (dinsert query "include_fields" v) "column_list"

/-- Stage 4 of `_query`: the two name substitutions applied inside
`query['include_fields']`. -/
def queryStage4 (query : List (String × PyVal)) :
    Except PyErr (List (String × PyVal)) :=
  match dlookup query "include_fields" with
  | none => .error .keyError
  | some ifv =>
    match normIncludeFields ifv with
    | .error e => .error e
    | .ok ifv' => .ok (dinsert query "include_fields" ifv')

/-- Translation of the query normalization in `Bugzilla4._query`, up to the
remote call.  The `Except.ok` result is the mapping handed to
`self._proxy.Bug.search`. -/
def _query_outgoing (query : List (String × PyVal)) :
    Except PyErr (List (String × PyVal)) :=
  match queryStage1 query with
  | .error e => .error e
  | .ok q₁ => queryStage4 (queryStage3 (queryStage2 q₁))

/-- Translation of the `'flags'` loop body in `_query`'s post-processing:
`"%s%s" % (tmp['name'], tmp['status'])` for one flag entry (KeyError when a
key is missing, TypeError when the entry is not a dict). -/
def flagStr : PyVal → Except PyErr String
  | .pdict d =>
    match dlookup d "name" with
    | none => .error .keyError
    | some n =>
      match dlookup d "status" with
      | none => .error .keyError
      | some s => .ok (pyStr n ++ pyStr s)
  | _ => .error .typeError

/-- The collected `tmpstr` list for a `flags` list. -/
def flagStrs : List PyVal → Except PyErr (List String)
  | [] => .ok []
  | v :: t =>
    match flagStr v with
    | .error e => .error e
    | .ok s =>
      match flagStrs t with
      | .error e => .error e
      | .ok ss => .ok (s :: ss)

/-- Translation of the `if 'flags' in bug:` branch of `_query`'s
post-processing: replace the `flags` list by the comma-joined
name+status string. -/
def flagsStep (bug : BugRec) : Except PyErr BugRec :=
  match dlookup bug "flags" with
  | none => .ok bug
  | some fv =>
    match fv with
    | .plist l =>
      match flagStrs l with
      | .error e => .error e
      | .ok strs =>
        .ok (dinsert bug "flags" (.pstr (String.intercalate "," strs)))
    | _ => .error .typeError

/-- Translation of the `if 'blocks' in bug:` branch of `_query`'s
post-processing: derive `blockedby` as the comma-joined stringified ids, or
the empty string for an empty `blocks` list. -/
def blocksStep (bug : BugRec) : Except PyErr BugRec :=
  match dlookup bug "blocks" with
  | none => .ok bug
  | some bv =>
    match bv with
    | .plist l =>
      if l.length > 0 then
        .ok (dinsert bug "blockedby"
          (.pstr (String.intercalate "," (l.map pyStr))))
      else .ok (dinsert bug "blockedby" (.pstr ""))
    | _ => .error .typeError

/-- Translation of the `if 'id' in bug:` branch of `_query`'s
post-processing: expose `id` also as `bug_id`. -/
def idStep (bug : BugRec) : BugRec :=
  match dlookup bug "id" with
  | none => bug
  | some v => dinsert bug "bug_id" v

/-- One iteration of `_query`'s post-processing loop on a single bug
record. -/
def processBug (bug : BugRec) : Except PyErr BugRec :=
  match flagsStep bug with
  | .error e => .error e
  | .ok b₁ =>
    match blocksStep b₁ with
    | .error e => .error e
    | .ok b₂ => .ok (idStep b₂)

/-- Translation of `for bug in ret['bugs']:` in `_query`: post-process every
bug record of the search response. -/
def processBugs : List BugRec → Except PyErr (List BugRec)
  | [] => .ok []
  | b :: t =>
    match processBug b with
    | .error e => .error e
    | .ok b' =>
      match processBugs t with
      | .error e => .error e
      | .ok t' => .ok (b' :: t')

theorem flagsStep_of_absent (bug : BugRec) (h : dlookup bug "flags" = none) :
    flagsStep bug = .ok bug := by
  simp [flagsStep, h]

theorem flagsStep_of_list (bug : BugRec) (l : List PyVal) (strs : List String)
    (h : dlookup bug "flags" = some (.plist l)) (hs : flagStrs l = .ok strs) :
    flagsStep bug =
      .ok (dinsert bug "flags" (.pstr (String.intercalate "," strs))) := by
  simp [flagsStep, h, hs]

theorem flagsStep_preserves (bug b' : BugRec) (k : String)
    (h : flagsStep bug = .ok b') (hk : k ≠ "flags") :
    dlookup b' k = dlookup bug k := by
  unfold flagsStep at h
  split at h
  · injection h with h
    subst h
    rfl
  · split at h
    · split at h
      · cases h
      · injection h with h
        subst h
        rw [dlookup_dinsert_ne _ _ _ _ hk]
    all_goals cases h

theorem blocksStep_of_absent (bug : BugRec) (h : dlookup bug "blocks" = none) :
    blocksStep bug = .ok bug := by
  simp [blocksStep, h]

theorem blocksStep_of_list (bug : BugRec) (l : List PyVal)
    (h : dlookup bug "blocks" = some (.plist l)) :
    blocksStep bug = .ok (dinsert bug "blockedby"
      (.pstr (if 0 < l.length then String.intercalate "," (l.map pyStr)
              else ""))) := by
  by_cases hl : 0 < l.length
  · simp [blocksStep, h, hl]
  · simp [blocksStep, h, hl]

theorem blocksStep_preserves (bug b' : BugRec) (k : String)
    (h : blocksStep bug = .ok b') (hk : k ≠ "blockedby") :
    dlookup b' k = dlookup bug k := by
  unfold blocksStep at h
  split at h
  · injection h with h
    subst h
    rfl
  · split at h
    · split at h
      · injection h with h
        subst h
        rw [dlookup_dinsert_ne _ _ _ _ hk]
      · injection h with h
        subst h
        rw [dlookup_dinsert_ne _ _ _ _ hk]
    all_goals cases h

theorem idStep_preserves (bug : BugRec) (k : String) (hk : k ≠ "bug_id") :
    dlookup (idStep bug) k = dlookup bug k := by
  unfold idStep
  cases hi : dlookup bug "id" with
  | none => rfl
  | some v => rw [dlookup_dinsert_ne _ _ _ _ hk]

theorem processBug_decomp (bug b' : BugRec) (h : processBug bug = .ok b') :
    ∃ b₁ b₂, flagsStep bug = .ok b₁ ∧ blocksStep b₁ = .ok b₂ ∧
      b' = idStep b₂ := by
  unfold processBug at h
  split at h
  · cases h
  next b₁ hf =>
    split at h
    · cases h
    next b₂ hb =>
      injection h with h
      exact ⟨b₁, b₂, hf, hb, h.symm⟩

theorem processBug_preserves_flags (bug b' : BugRec)
    (h : processBug bug = .ok b') (hf : dlookup bug "flags" = none) :
    dlookup b' "flags" = none := by
  obtain ⟨b₁, b₂, h₁, h₂, h₃⟩ := processBug_decomp bug b' h
  rw [flagsStep_of_absent bug hf] at h₁
  cases h₁
  rw [h₃, idStep_preserves _ _ (by decide),
    blocksStep_preserves _ _ _ h₂ (by decide), hf]

theorem processBug_flags_of_list (bug b' : BugRec) (l : List PyVal)
    (strs : List String) (h : processBug bug = .ok b')
    (hf : dlookup bug "flags" = some (.plist l))
    (hs : flagStrs l = .ok strs) :
    dlookup b' "flags" = some (.pstr (String.intercalate "," strs)) := by
  obtain ⟨b₁, b₂, h₁, h₂, h₃⟩ := processBug_decomp bug b' h
  rw [flagsStep_of_list bug l strs hf hs] at h₁
  cases h₁
  rw [h₃, idStep_preserves _ _ (by decide),
    blocksStep_preserves _ _ _ h₂ (by decide), dlookup_dinsert_self]

theorem processBug_blocks_of_list (bug b' : BugRec) (l : List PyVal)
    (h : processBug bug = .ok b')
    (hb : dlookup bug "blocks" = some (.plist l)) :
    dlookup b' "blockedby" =
      some (.pstr (if 0 < l.length then String.intercalate "," (l.map pyStr)
                   else "")) := by
  obtain ⟨b₁, b₂, h₁, h₂, h₃⟩ := processBug_decomp bug b' h
  have hb₁ : dlookup b₁ "blocks" = some (.plist l) := by
    rw [flagsStep_preserves _ _ _ h₁ (by decide), hb]
  rw [blocksStep_of_list b₁ l hb₁] at h₂
  cases h₂
  rw [h₃, idStep_preserves _ _ (by decide), dlookup_dinsert_self]

theorem processBug_blocks_absent (bug b' : BugRec)
    (h : processBug bug = .ok b')
    (hb : dlookup bug "blocks" = none) :
    dlookup b' "blockedby" = dlookup bug "blockedby" := by
  obtain ⟨b₁, b₂, h₁, h₂, h₃⟩ := processBug_decomp bug b' h
  have hb₁ : dlookup b₁ "blocks" = none := by
    rw [flagsStep_preserves _ _ _ h₁ (by decide), hb]
  rw [blocksStep_of_absent b₁ hb₁] at h₂
  cases h₂
  rw [h₃, idStep_preserves _ _ (by decide),
    flagsStep_preserves _ _ _ h₁ (by decide)]

theorem processBugs_length_get (bugs bugs' : List BugRec)
    (h : processBugs bugs = .ok bugs') :
    bugs'.length = bugs.length ∧
    ∀ i (h₁ : i < bugs.length) (h₂ : i < bugs'.length),
      processBug (bugs.get ⟨i, h₁⟩) = .ok (bugs'.get ⟨i, h₂⟩) := by
  induction bugs generalizing bugs' with
  | nil =>
    unfold processBugs at h
    simp only [Except.ok.injEq] at h
    subst h
    exact ⟨rfl, fun i h₁ => by cases h₁⟩
  | cons b t ih =>
    unfold processBugs at h
    cases hb : processBug b with
    | error e => rw [hb] at h; cases h
    | ok b' =>
      rw [hb] at h
      cases ht : processBugs t with
      | error e => rw [ht] at h; cases h
      | ok t' =>
        rw [ht] at h
        simp only [Except.ok.injEq] at h
        subst h
        obtain ⟨hlen, hget⟩ := ih t' ht
        refine ⟨by simp [hlen], ?_⟩
        intro i h₁ h₂
        cases i with
        | zero => simpa using hb
        | succ j =>
          simp only [List.length_cons, Nat.succ_lt_succ_iff] at h₁ h₂
          simpa using hget j h₁ h₂

/-- Claim C3: for every search response and every bug record in it that contains a
`flags` key holding a list of `{name, status}` entries, post-processing
replaces the record's `flags` value by the comma-joined string of the
name+status concatenations; records without a `flags` key keep no `flags`
key, and the flags step raises no error on them. -/
theorem search_flags_postprocessing (bugs bugs' : List BugRec)
    (h : processBugs bugs = .ok bugs') :
    (∀ b : BugRec, dlookup b "flags" = none → flagsStep b = .ok b) ∧
    bugs'.length = bugs.length ∧
    ∀ i (h₁ : i < bugs.length) (h₂ : i < bugs'.length),
      (∀ l strs, dlookup (bugs.get ⟨i, h₁⟩) "flags" = some (.plist l) →
         flagStrs l = .ok strs →
         dlookup (bugs'.get ⟨i, h₂⟩) "flags" =
           some (.pstr (String.intercalate "," strs))) ∧
      (dlookup (bugs.get ⟨i, h₁⟩) "flags" = none →
         dlookup (bugs'.get ⟨i, h₂⟩) "flags" = none) := by
  obtain ⟨hlen, hget⟩ := processBugs_length_get bugs bugs' h
  refine ⟨flagsStep_of_absent, hlen, fun i h₁ h₂ => ⟨?_, ?_⟩⟩
  · intro l strs hf hs
    exact processBug_flags_of_list _ _ l strs (hget i h₁ h₂) hf hs
  · intro hf
    exact processBug_preserves_flags _ _ (hget i h₁ h₂) hf

/-- Witness for C3: the record `{'flags': [{'name': 'review',
'status': '+'}]}` comes back with `flags` equal to the string `'review+'`. -/
theorem search_flags_postprocessing_witness :
    processBugs [[("flags", PyVal.plist [PyVal.pdict
        [("name", PyVal.pstr "review"), ("status", PyVal.pstr "+")]])]] =
      .ok [[("flags", PyVal.pstr "review+")]] ∧
    dlookup (([[("flags", PyVal.pstr "review+")]] : List BugRec).get
        ⟨0, Nat.zero_lt_one⟩) "flags" = some (PyVal.pstr "review+") := by
  refine ⟨rfl, ?_⟩
  exact ((search_flags_postprocessing
      [[("flags", PyVal.plist [PyVal.pdict
        [("name", PyVal.pstr "review"), ("status", PyVal.pstr "+")]])]]
      [[("flags", PyVal.pstr "review+")]] rfl).2.2 0 Nat.zero_lt_one
      Nat.zero_lt_one).1
    [PyVal.pdict [("name", PyVal.pstr "review"), ("status", PyVal.pstr "+")]]
    ["review+"] rfl rfl

/-- Claim C10: for every bug record in a search response whose `flags` key holds
the empty list, post-processing replaces `flags` with the empty string: the
key stays present as a string, and the flags step raises no error. -/
theorem search_flags_empty_list (bugs bugs' : List BugRec)
    (h : processBugs bugs = .ok bugs') :
    (∀ b : BugRec, dlookup b "flags" = some (.plist []) →
       flagsStep b = .ok (dinsert b "flags" (.pstr ""))) ∧
    ∀ i (h₁ : i < bugs.length) (h₂ : i < bugs'.length),
      dlookup (bugs.get ⟨i, h₁⟩) "flags" = some (.plist []) →
      dlookup (bugs'.get ⟨i, h₂⟩) "flags" = some (.pstr "") := by
  obtain ⟨_, hget⟩ := processBugs_length_get bugs bugs' h
  constructor
  · intro b hb
    exact flagsStep_of_list b [] [] hb rfl
  · intro i h₁ h₂ hf
    exact processBug_flags_of_list _ _ [] [] (hget i h₁ h₂) hf rfl

/-- Witness for C10: the record `{'flags': []}` comes back with `flags`
equal to the empty string. -/
theorem search_flags_empty_list_witness :
    processBugs [[("flags", PyVal.plist [])]] =
      .ok [[("flags", PyVal.pstr "")]] ∧
    dlookup (([[("flags", PyVal.pstr "")]] : List BugRec).get
        ⟨0, Nat.zero_lt_one⟩) "flags" = some (PyVal.pstr "") := by
  refine ⟨rfl, ?_⟩
  exact (search_flags_empty_list [[("flags", PyVal.plist [])]]
      [[("flags", PyVal.pstr "")]] rfl).2 0 Nat.zero_lt_one Nat.zero_lt_one rfl

/-- Claim C4: for every search response and every bug record in it, a non-empty
`blocks` list yields a `blockedby` key holding the comma-joined stringified
ids, an empty `blocks` list yields `blockedby` as the empty string, and a
record without a `blocks` key gets no `blockedby` key added. -/
theorem search_blocks_postprocessing (bugs bugs' : List BugRec)
    (h : processBugs bugs = .ok bugs') :
    bugs'.length = bugs.length ∧
    ∀ i (h₁ : i < bugs.length) (h₂ : i < bugs'.length),
      (∀ l, dlookup (bugs.get ⟨i, h₁⟩) "blocks" = some (.plist l) →
         l ≠ [] →
         dlookup (bugs'.get ⟨i, h₂⟩) "blockedby" =
           some (.pstr (String.intercalate "," (l.map pyStr)))) ∧
      (dlookup (bugs.get ⟨i, h₁⟩) "blocks" = some (.plist []) →
         dlookup (bugs'.get ⟨i, h₂⟩) "blockedby" = some (.pstr "")) ∧
      (dlookup (bugs.get ⟨i, h₁⟩) "blocks" = none →
         dlookup (bugs'.get ⟨i, h₂⟩) "blockedby" =
           dlookup (bugs.get ⟨i, h₁⟩) "blockedby") := by
  obtain ⟨hlen, hget⟩ := processBugs_length_get bugs bugs' h
  refine ⟨hlen, fun i h₁ h₂ => ⟨?_, ?_, ?_⟩⟩
  · intro l hb hne
    have hpos : 0 < l.length := List.length_pos.mpr hne
    have := processBug_blocks_of_list _ _ l (hget i h₁ h₂) hb
    rwa [if_pos hpos] at this
  · intro hb
    have := processBug_blocks_of_list _ _ [] (hget i h₁ h₂) hb
    simpa using this
  · intro hb
    exact processBug_blocks_absent _ _ (hget i h₁ h₂) hb

/-- Witness for C4: `{'blocks': [5, 6]}` gains `blockedby: '5,6'`,
`{'blocks': []}` gains `blockedby: ''`, and a record without `blocks`
stays without `blockedby`. -/
theorem search_blocks_postprocessing_witness :
    processBugs [[("blocks", PyVal.plist [PyVal.pint 5, PyVal.pint 6])],
        [("blocks", PyVal.plist [])], [("x", PyVal.pint 1)]] =
      .ok [[("blocks", PyVal.plist [PyVal.pint 5, PyVal.pint 6]),
            ("blockedby", PyVal.pstr "5,6")],
           [("blocks", PyVal.plist []), ("blockedby", PyVal.pstr "")],
           [("x", PyVal.pint 1)]] ∧
    dlookup ([("blocks", PyVal.plist [PyVal.pint 5, PyVal.pint 6]),
        ("blockedby", PyVal.pstr "5,6")] : BugRec) "blockedby" =
      some (PyVal.pstr "5,6") ∧
    dlookup ([("blocks", PyVal.plist []), ("blockedby", PyVal.pstr "")] :
        BugRec) "blockedby" = some (PyVal.pstr "") ∧
    dlookup ([("x", PyVal.pint 1)] : BugRec) "blockedby" = none := by
  have h := search_blocks_postprocessing
    [[("blocks", PyVal.plist [PyVal.pint 5, PyVal.pint 6])],
     [("blocks", PyVal.plist [])], [("x", PyVal.pint 1)]]
    [[("blocks", PyVal.plist [PyVal.pint 5, PyVal.pint 6]),
      ("blockedby", PyVal.pstr "5,6")],
     [("blocks", PyVal.plist []), ("blockedby", PyVal.pstr "")],
     [("x", PyVal.pint 1)]] rfl
  refine ⟨rfl, ?_, ?_, ?_⟩
  · exact (h.2 0 (by decide) (by decide)).1 [PyVal.pint 5, PyVal.pint 6]
      rfl (List.cons_ne_nil _ _)
  · exact (h.2 1 (by decide) (by decide)).2.1 rfl
  · exact (h.2 2 (by decide) (by decide)).2.2 rfl

theorem queryStage1_of_absent (q : List (String × PyVal))
    (h : dlookup q "bug_id" = none) : queryStage1 q = .ok q := by
  simp [queryStage1, h]

theorem queryStage1_of_present (q q₁ : List (String × PyVal)) (v : PyVal)
    (hv : dlookup q "bug_id" = some v) (h : queryStage1 q = .ok q₁) :
    ∃ idv, bugIdToList v = .ok idv ∧
      q₁ = derase (dinsert q "id" idv) "bug_id" := by
  unfold queryStage1 at h
  split at h
  next heq => rw [hv] at heq; cases heq
  next v' heq =>
    rw [hv] at heq
    injection heq with heq
    subst heq
    split at h
    · cases h
    next idv hb =>
      injection h with h
      exact ⟨idv, hb, h.symm⟩

theorem queryStage1_preserves (q q₁ : List (String × PyVal)) (k : String)
    (h : queryStage1 q = .ok q₁) (hk₁ : k ≠ "id") (hk₂ : k ≠ "bug_id") :
    dlookup q₁ k = dlookup q k := by
  cases hv : dlookup q "bug_id" with
  | none =>
    rw [queryStage1_of_absent q hv] at h
    injection h with h
    rw [h]
  | some v =>
    obtain ⟨idv, _, hq⟩ := queryStage1_of_present q q₁ v hv h
    rw [hq, dlookup_derase_ne _ _ _ hk₂, dlookup_dinsert_ne _ _ _ _ hk₁]

theorem queryStage2_self (q : List (String × PyVal)) :
    dlookup (queryStage2 q) "include_fields" = some (.plist []) :=
  dlookup_dinsert_self q "include_fields" _

theorem queryStage2_preserves (q : List (String × PyVal)) (k : String)
    (hk : k ≠ "include_fields") :
    dlookup (queryStage2 q) k = dlookup q k :=
  dlookup_dinsert_ne q "include_fields" k _ hk

theorem queryStage3_of_absent (q : List (String × PyVal))
    (h : dlookup q "column_list" = none) : queryStage3 q = q := by
  simp [queryStage3, h]

theorem queryStage3_of_present (q : List (String × PyVal)) (v : PyVal)
    (h : dlookup q "column_list" = some v) :
    queryStage3 q = derase (dinsert q "include_fields" v) "column_list" := by
  simp [queryStage3, h]

theorem queryStage3_preserves (q : List (String × PyVal)) (k : String)
    (hk₁ : k ≠ "column_list") (hk₂ : k ≠ "include_fields") :
    dlookup (queryStage3 q) k = dlookup q k := by
  cases hc : dlookup q "column_list" with
  | none => rw [queryStage3_of_absent q hc]
  | some v =>
    rw [queryStage3_of_present q v hc, dlookup_derase_ne _ _ _ hk₁,
      dlookup_dinsert_ne _ _ _ _ hk₂]

theorem queryStage4_decomp (q out : List (String × PyVal))
    (h : queryStage4 q = .ok out) :
    ∃ ifv ifv', dlookup q "include_fields" = some ifv ∧
      normIncludeFields ifv = .ok ifv' ∧
      out = dinsert q "include_fields" ifv' := by
  unfold queryStage4 at h
  split at h
  · cases h
  next ifv hi =>
    split at h
    · cases h
    next ifv' hn =>
      injection h with h
      exact ⟨ifv, ifv', hi, hn, h.symm⟩

theorem query_outgoing_decomp (q out : List (String × PyVal))
    (h : _query_outgoing q = .ok out) :
    ∃ q₁, queryStage1 q = .ok q₁ ∧
      queryStage4 (queryStage3 (queryStage2 q₁)) = .ok out := by
  unfold _query_outgoing at h
  cases h₁ : queryStage1 q with
  | error e => rw [h₁] at h; cases h
  | ok q₁ => rw [h₁] at h; exact ⟨q₁, rfl, h⟩

theorem queryStage4_preserves (q out : List (String × PyVal)) (k : String)
    (h : queryStage4 q = .ok out) (hk : k ≠ "include_fields") :
    dlookup out k = dlookup q k := by
  obtain ⟨ifv, ifv', _, _, hout⟩ := queryStage4_decomp q out h
  rw [hout, dlookup_dinsert_ne _ _ _ _ hk]

/-- Claim C2: for every query mapping containing a `bug_id` key, the outgoing
mapping handed to `Bug.search` holds under `id` the comma-split pieces when
the `bug_id` value was a string, or the unchanged list when it was already a
list, and holds no `bug_id` key. -/
theorem search_bug_id_normalization (query : List (String × PyVal))
    (v : PyVal) (out : List (String × PyVal))
    (hv : dlookup query "bug_id" = some v)
    (h : _query_outgoing query = .ok out) :
    dlookup out "bug_id" = none ∧
    (∀ s, v = .pstr s →
       dlookup out "id" = some (.plist ((pyStrSplit s ',').map .pstr))) ∧
    (∀ l, v = .plist l → dlookup out "id" = some (.plist l)) := by
  obtain ⟨q₁, h₁, h₄⟩ := query_outgoing_decomp query out h
  obtain ⟨idv, hb, hq₁⟩ := queryStage1_of_present query q₁ v hv h₁
  have hid : dlookup q₁ "id" = some idv := by
    rw [hq₁, dlookup_derase_ne _ _ _ (by decide), dlookup_dinsert_self]
  have hbid : dlookup q₁ "bug_id" = none := by
    rw [hq₁, dlookup_derase_self]
  have hid' : dlookup out "id" = some idv := by
    rw [queryStage4_preserves _ _ _ h₄ (by decide),
      queryStage3_preserves _ _ (by decide) (by decide),
      queryStage2_preserves _ _ (by decide), hid]
  have hbid' : dlookup out "bug_id" = none := by
    rw [queryStage4_preserves _ _ _ h₄ (by decide),
      queryStage3_preserves _ _ (by decide) (by decide),
      queryStage2_preserves _ _ (by decide), hbid]
  refine ⟨hbid', ?_, ?_⟩
  · intro s hs
    subst hs
    unfold bugIdToList at hb
    injection hb with hb
    rw [hid', ← hb]
  · intro l hl
    subst hl
    unfold bugIdToList at hb
    injection hb with hb
    rw [hid', ← hb]

/-- Witness for C2: `search({'bug_id': '1,2,3'})` sends `id: ['1','2','3']`
and no `bug_id` key. -/
theorem search_bug_id_normalization_witness :
    _query_outgoing [("bug_id", PyVal.pstr "1,2,3")] =
      .ok [("id", PyVal.plist [PyVal.pstr "1", PyVal.pstr "2",
            PyVal.pstr "3"]),
           ("include_fields", PyVal.plist [])] ∧
    dlookup [("id", PyVal.plist [PyVal.pstr "1", PyVal.pstr "2",
          PyVal.pstr "3"]),
        ("include_fields", PyVal.plist [])] "bug_id" = none ∧
    dlookup [("id", PyVal.plist [PyVal.pstr "1", PyVal.pstr "2",
          PyVal.pstr "3"]),
        ("include_fields", PyVal.plist [])] "id" =
      some (PyVal.plist ((pyStrSplit "1,2,3" ',').map PyVal.pstr)) := by
  have h := search_bug_id_normalization [("bug_id", PyVal.pstr "1,2,3")]
    (PyVal.pstr "1,2,3")
    [("id", PyVal.plist [PyVal.pstr "1", PyVal.pstr "2", PyVal.pstr "3"]),
     ("include_fields", PyVal.plist [])] rfl rfl
  exact ⟨rfl, h.1, h.2.1 "1,2,3" rfl⟩

/-- Claim C5: the outgoing mapping handed to `Bug.search` always carries an
`include_fields` key; it is the empty list when the query had no
`column_list` key, and otherwise the `column_list` value (run through the
two `include_fields` name substitutions), `column_list` itself being
removed. -/
theorem search_include_fields_projection (query out : List (String × PyVal))
    (h : _query_outgoing query = .ok out) :
    (∃ w, dlookup out "include_fields" = some w) ∧
    dlookup out "column_list" = none ∧
    (dlookup query "column_list" = none →
       dlookup out "include_fields" = some (.plist [])) ∧
    (∀ v, dlookup query "column_list" = some v →
       ∃ v', normIncludeFields v = .ok v' ∧
         dlookup out "include_fields" = some v') := by
  obtain ⟨q₁, h₁, h₄⟩ := query_outgoing_decomp query out h
  obtain ⟨ifv, ifv', hif, hn, hout⟩ :=
    queryStage4_decomp (queryStage3 (queryStage2 q₁)) out h₄
  have hself : dlookup out "include_fields" = some ifv' := by
    rw [hout, dlookup_dinsert_self]
  have hcl₁ : dlookup q₁ "column_list" = dlookup query "column_list" :=
    queryStage1_preserves query q₁ _ h₁ (by decide) (by decide)
  have hcl₂ : dlookup (queryStage2 q₁) "column_list" =
      dlookup query "column_list" := by
    rw [queryStage2_preserves _ _ (by decide), hcl₁]
  refine ⟨⟨ifv', hself⟩, ?_, ?_, ?_⟩
  · rw [hout, dlookup_dinsert_ne _ _ _ _ (by decide)]
    cases hc : dlookup query "column_list" with
    | none =>
      rw [queryStage3_of_absent _ (by rw [hcl₂, hc]), hcl₂, hc]
    | some v =>
      rw [queryStage3_of_present _ v (by rw [hcl₂, hc]),
        dlookup_derase_self]
  · intro hc
    have h₃ : queryStage3 (queryStage2 q₁) = queryStage2 q₁ :=
      queryStage3_of_absent _ (by rw [hcl₂, hc])
    rw [h₃, queryStage2_self] at hif
    injection hif with hif
    subst hif
    have : ifv' = PyVal.plist [] := by
      have hrfl : normIncludeFields (PyVal.plist []) = .ok (PyVal.plist []) :=
        rfl
      rw [hrfl] at hn
      injection hn with hn
      exact hn.symm
    rw [hself, this]
  · intro v hc
    have h₃ : queryStage3 (queryStage2 q₁) =
        derase (dinsert (queryStage2 q₁) "include_fields" v) "column_list" :=
      queryStage3_of_present _ v (by rw [hcl₂, hc])
    rw [h₃, dlookup_derase_ne _ _ _ (by decide),
      dlookup_dinsert_self] at hif
    injection hif with hif
    subst hif
    exact ⟨ifv', hn, hself⟩

/-- Witness for C5: a query with no `column_list` goes out with
`include_fields: []`; a query with `column_list: ['blockedby']` goes out
with `include_fields: ['blocks']` and no `column_list`. -/
theorem search_include_fields_projection_witness :
    _query_outgoing [("a", PyVal.pint 1)] =
      .ok [("a", PyVal.pint 1), ("include_fields", PyVal.plist [])] ∧
    dlookup [("a", PyVal.pint 1), ("include_fields", PyVal.plist [])]
      "include_fields" = some (PyVal.plist []) ∧
    _query_outgoing [("column_list", PyVal.plist [PyVal.pstr "blockedby"])] =
      .ok [("include_fields", PyVal.plist [PyVal.pstr "blocks"])] ∧
    dlookup [("include_fields", PyVal.plist [PyVal.pstr "blocks"])]
      "column_list" = none := by
  have h₁ := search_include_fields_projection [("a", PyVal.pint 1)]
    [("a", PyVal.pint 1), ("include_fields", PyVal.plist [])] rfl
  have h₂ := search_include_fields_projection
    [("column_list", PyVal.plist [PyVal.pstr "blockedby"])]
    [("include_fields", PyVal.plist [PyVal.pstr "blocks"])] rfl
  exact ⟨rfl, h₁.2.2.1 rfl, rfl, h₂.2.1⟩

theorem mapIntList_length (l : List PyVal) (ids : List Int)
    (h : mapIntList l = .ok ids) : ids.length = l.length := by
  induction l generalizing ids with
  | nil =>
    unfold mapIntList at h
    injection h with h
    subst h
    rfl
  | cons x t ih =>
    unfold mapIntList at h
    split at h
    · cases h
    · split at h
      · cases h
      next ns hns =>
        injection h with h
        rw [← h]
        simp [ih ns hns]

theorem mapIntList_ok_of_all (l : List PyVal)
    (h : ∀ x ∈ l, ∃ n, pyToInt x = .ok n) :
    ∃ ids, mapIntList l = .ok ids := by
  induction l with
  | nil => exact ⟨[], rfl⟩
  | cons x t ih =>
    obtain ⟨n, hn⟩ := h x (List.mem_cons_self x t)
    obtain ⟨ids, hids⟩ := ih (fun y hy => h y (List.mem_cons_of_mem x hy))
    exact ⟨n :: ids, by unfold mapIntList; rw [hn, hids]⟩

theorem pyToInt_error_kind (x : PyVal) (e : PyErr)
    (h : pyToInt x = .error e) : e = .typeError ∨ e = .valueError := by
  cases x with
  | pstr s =>
    simp only [pyToInt] at h
    cases hp : pyStrToInt s with
    | some n => rw [hp] at h; simp at h
    | none =>
      rw [hp] at h
      simp only [Except.error.injEq] at h
      subst h
      exact Or.inr rfl
  | pint n => simp [pyToInt] at h
  | pbool b => simp [pyToInt] at h
  | pnone =>
    simp only [pyToInt, Except.error.injEq] at h
    subst h
    exact Or.inl rfl
  | plist l =>
    simp only [pyToInt, Except.error.injEq] at h
    subst h
    exact Or.inl rfl
  | pdict d =>
    simp only [pyToInt, Except.error.injEq] at h
    subst h
    exact Or.inl rfl

theorem mapIntList_error_of_bad (l : List PyVal)
    (h : ∃ x ∈ l, ∀ n, pyToInt x ≠ .ok n) :
    ∃ e, mapIntList l = .error e ∧
      (e = .typeError ∨ e = .valueError) := by
  induction l with
  | nil => obtain ⟨x, hx, _⟩ := h; cases hx
  | cons y t ih =>
    obtain ⟨x, hx, hbad⟩ := h
    cases hy : pyToInt y with
    | error e =>
      exact ⟨e, by unfold mapIntList; rw [hy], pyToInt_error_kind y e hy⟩
    | ok n =>
      have hxt : x ∈ t := by
        rcases List.mem_cons.mp hx with rfl | hxt
        · exact absurd hy (hbad n)
        · exact hxt
      obtain ⟨e, he, hkind⟩ := ih ⟨x, hxt, hbad⟩
      exact ⟨e, by unfold mapIntList; rw [hy, he], hkind⟩

theorem buildBugPairs_mem (bugs : List BugRec)
    (pairs : List (PyVal × BugRec)) (h : buildBugPairs bugs = .ok pairs) :
    ∀ k b, (k, b) ∈ pairs ↔ (b ∈ bugs ∧ dlookup b "id" = some k) := by
  induction bugs generalizing pairs with
  | nil =>
    unfold buildBugPairs at h
    injection h with h
    subst h
    simp
  | cons bug t ih =>
    unfold buildBugPairs at h
    split at h
    · cases h
    next kk hkk =>
      split at h
      · cases h
      next ps hps =>
        injection h with h
        subst h
        intro k b
        constructor
        · intro hmem
          rcases List.mem_cons.mp hmem with heq | hmem'
          · injection heq with h1 h2
            subst h1
            subst h2
            exact ⟨List.mem_cons_self _ _, hkk⟩
          · obtain ⟨hb, hid⟩ := (ih ps hps k b).mp hmem'
            exact ⟨List.mem_cons_of_mem _ hb, hid⟩
        · rintro ⟨hb, hid⟩
          rcases List.mem_cons.mp hb with rfl | hb'
          · rw [hkk] at hid
            injection hid with hid
            subst hid
            exact List.mem_cons_self _ _
          · exact List.mem_cons_of_mem _ ((ih ps hps k b).mpr ⟨hb', hid⟩)

theorem pyDictGet_some {α : Type} (pairs : List (α × BugRec))
    (eq : α → α → Bool) (k : α) (b : BugRec)
    (h : pyDictGet pairs eq k = some b) :
    ∃ kk, (kk, b) ∈ pairs ∧ eq kk k = true := by
  unfold pyDictGet at h
  cases hf : pairs.reverse.find? (fun p => eq p.1 k) with
  | none => rw [hf] at h; cases h
  | some p =>
    rw [hf] at h
    injection h with h
    subst h
    have hp := List.find?_some hf
    have hmem := List.mem_reverse.mp (List.mem_of_find?_eq_some hf)
    exact ⟨p.1, by simpa using hmem, hp⟩

theorem pyDictGet_none {α : Type} (pairs : List (α × BugRec))
    (eq : α → α → Bool) (k : α) (h : pyDictGet pairs eq k = none) :
    ∀ kk b, (kk, b) ∈ pairs → eq kk k = false := by
  unfold pyDictGet at h
  cases hf : pairs.reverse.find? (fun p => eq p.1 k) with
  | some p => rw [hf] at h; cases h
  | none =>
    intro kk b hmem
    have := List.find?_eq_none.mp hf (kk, b) (List.mem_reverse.mpr hmem)
    simpa using this

theorem getbugs_decomp (idlist : List PyVal) (bugs : List BugRec)
    (out : List (Option BugRec)) (h : _getbugs idlist bugs = .ok out) :
    ∃ ids pairs, mapIntList idlist = .ok ids ∧
      buildBugPairs bugs = .ok pairs ∧
      out = ids.map (fun i => pyDictGet pairs pyEq (.pint i)) := by
  unfold _getbugs at h
  split at h
  · cases h
  next ids hids =>
    split at h
    · cases h
    next pairs hpairs =>
      injection h with h
      exact ⟨ids, pairs, hids, hpairs, h.symm⟩

/-- Claim C1: whenever `_getbugs` succeeds, its result has the same length as the
input id list and is positionally aligned to it: position `i` holds a bug
record of the response whose `id` equals (by Python `==`) the `i`-th
converted input id when the response contains one, and `None` when the
response contains no record with that id — for any response ordering and
any subset of found ids. -/
theorem getbugs_alignment (idlist : List PyVal) (bugs : List BugRec)
    (out : List (Option BugRec)) (h : _getbugs idlist bugs = .ok out) :
    out.length = idlist.length ∧
    ∃ ids, mapIntList idlist = .ok ids ∧ ids.length = idlist.length ∧
      ∀ i (hi : i < ids.length) (ho : i < out.length),
        (∀ b, out.get ⟨i, ho⟩ = some b →
           b ∈ bugs ∧ ∃ idv, dlookup b "id" = some idv ∧
             pyEq idv (.pint (ids.get ⟨i, hi⟩)) = true) ∧
        (out.get ⟨i, ho⟩ = none →
           ∀ b ∈ bugs, ∀ idv, dlookup b "id" = some idv →
             pyEq idv (.pint (ids.get ⟨i, hi⟩)) = false) := by
  obtain ⟨ids, pairs, hids, hpairs, hout⟩ := getbugs_decomp idlist bugs out h
  have hlen : ids.length = idlist.length := mapIntList_length idlist ids hids
  have holen : out.length = idlist.length := by
    rw [hout, List.length_map, hlen]
  refine ⟨holen, ids, hids, hlen, ?_⟩
  intro i hi ho
  have hgeti : out.get ⟨i, ho⟩ =
      pyDictGet pairs pyEq (.pint (ids.get ⟨i, hi⟩)) := by
    subst hout
    simp [List.get_eq_getElem, List.getElem_map]
  constructor
  · intro b hb
    rw [hgeti] at hb
    obtain ⟨kk, hmem, hkk⟩ := pyDictGet_some pairs pyEq _ b hb
    obtain ⟨hbugs, hid⟩ := (buildBugPairs_mem bugs pairs hpairs kk b).mp hmem
    exact ⟨hbugs, kk, hid, hkk⟩
  · intro hnone b hb idv hid
    rw [hgeti] at hnone
    exact pyDictGet_none pairs pyEq _ hnone idv b
      ((buildBugPairs_mem bugs pairs hpairs idv b).mpr ⟨hb, hid⟩)

/-- Witness for C1: ids `['2', 9, 1]` against a response holding records
for 1 and 2 (in the opposite order) come back as the record with id 2,
`None`, and the record with id 1. -/
theorem getbugs_alignment_witness :
    _getbugs [PyVal.pstr "2", PyVal.pint 9, PyVal.pint 1]
      [[("id", PyVal.pint 1), ("a", PyVal.pstr "x")], [("id", PyVal.pint 2)]] =
      .ok [some [("id", PyVal.pint 2)], none,
           some [("id", PyVal.pint 1), ("a", PyVal.pstr "x")]] ∧
    ([some [("id", PyVal.pint 2)], none,
      some [("id", PyVal.pint 1), ("a", PyVal.pstr "x")]] :
        List (Option BugRec)).length =
      ([PyVal.pstr "2", PyVal.pint 9, PyVal.pint 1] : List PyVal).length := by
  refine ⟨rfl, ?_⟩
  exact (getbugs_alignment [PyVal.pstr "2", PyVal.pint 9, PyVal.pint 1]
    [[("id", PyVal.pint 1), ("a", PyVal.pstr "x")], [("id", PyVal.pint 2)]]
    [some [("id", PyVal.pint 2)], none,
     some [("id", PyVal.pint 1), ("a", PyVal.pstr "x")]] rfl).1

/-- Claim C9: `_getbugs` converts every element of its id list with Python `int`;
when every element is integer-like the conversion step always succeeds, and
when some element is not integer-like the call fails with a standard
conversion error (TypeError or ValueError), not a domain-specific one. -/
theorem getbugs_conversion (idlist : List PyVal) (bugs : List BugRec) :
    ((∀ x ∈ idlist, ∃ n, pyToInt x = .ok n) →
       ∃ ids, mapIntList idlist = .ok ids) ∧
    ((∃ x ∈ idlist, ∀ n, pyToInt x ≠ .ok n) →
       ∃ e, _getbugs idlist bugs = .error e ∧
         (e = .typeError ∨ e = .valueError)) := by
  constructor
  · exact mapIntList_ok_of_all idlist
  · intro hbad
    obtain ⟨e, he, hkind⟩ := mapIntList_error_of_bad idlist hbad
    exact ⟨e, by unfold _getbugs; rw [he], hkind⟩

/-- Witness for C9: ids `['7', 3]` all convert, while the id list
`[1, []]` makes `_getbugs` fail with a TypeError. -/
theorem getbugs_conversion_witness :
    (∃ ids, mapIntList [PyVal.pstr "7", PyVal.pint 3] = .ok ids) ∧
    (∃ e, _getbugs [PyVal.pint 1, PyVal.plist []] [] = .error e ∧
       (e = PyErr.typeError ∨ e = PyErr.valueError)) := by
  constructor
  · refine (getbugs_conversion [PyVal.pstr "7", PyVal.pint 3] []).1 ?_
    intro x hx
    rcases List.mem_cons.mp hx with rfl | hx'
    · exact ⟨7, rfl⟩
    · rcases List.mem_cons.mp hx' with rfl | hx''
      · exact ⟨3, rfl⟩
      · cases hx''
  · refine (getbugs_conversion [PyVal.pint 1, PyVal.plist []] []).2 ?_
    refine ⟨PyVal.plist [], by simp, ?_⟩
    intro n h
    cases h

/-- Claim C6: `_getusers` with all of `ids`, `names`, `match` falsy raises
`NeedParamError` without ever producing an outgoing mapping, and otherwise
the outgoing mapping contains exactly the bindings for the truthy arguments
among the three, in that order. -/
theorem getusers_params (ids names match_arg : PyVal) :
    (_getusers ids names match_arg = .error .needParam ↔
       (pyTruthy ids = false ∧ pyTruthy names = false ∧
        pyTruthy match_arg = false)) ∧
    ((pyTruthy ids = true ∨ pyTruthy names = true ∨
        pyTruthy match_arg = true) →
       _getusers ids names match_arg = .ok
         ((if pyTruthy ids then [("ids", ids)] else []) ++
          (if pyTruthy names then [("names", names)] else []) ++
          (if pyTruthy match_arg then [("match", match_arg)] else []))) := by
  cases hI : pyTruthy ids <;> cases hN : pyTruthy names <;>
    cases hM : pyTruthy match_arg <;>
    simp [_getusers, hI, hN, hM, dinsert]

/-- Witness for C6: all-`None` arguments raise the local error, while a
truthy `ids` list yields the mapping holding just `ids`. -/
theorem getusers_params_witness :
    _getusers PyVal.pnone PyVal.pnone PyVal.pnone = .error .needParam ∧
    _getusers (PyVal.plist [PyVal.pint 3]) PyVal.pnone PyVal.pnone =
      .ok [("ids", PyVal.plist [PyVal.pint 3])] := by
  constructor
  · exact (getusers_params PyVal.pnone PyVal.pnone PyVal.pnone).1.mpr
      ⟨rfl, rfl, rfl⟩
  · exact (getusers_params (PyVal.plist [PyVal.pint 3]) PyVal.pnone
      PyVal.pnone).2 (Or.inl rfl)

/-- Claim C7: the parameter mapping `_addcomment` sends to `Bug.add_comment`
contains exactly the keys `id`, `comment`, `private`, `work_time` (with
`work_time` carrying the `worktime` argument), never a `timestamp` or
`bz_gid` key, and does not depend on the `timestamp` and `bz_gid`
arguments at all. -/
theorem addcomment_params (id comment : PyVal) (priv : Bool)
    (timestamp worktime bz_gid : PyVal) :
    (_addcomment id comment priv timestamp worktime bz_gid).map Prod.fst =
      ["id", "comment", "private", "work_time"] ∧
    dlookup (_addcomment id comment priv timestamp worktime bz_gid) "id" =
      some id ∧
    dlookup (_addcomment id comment priv timestamp worktime bz_gid)
      "comment" = some comment ∧
    dlookup (_addcomment id comment priv timestamp worktime bz_gid)
      "private" = some (.pbool priv) ∧
    dlookup (_addcomment id comment priv timestamp worktime bz_gid)
      "work_time" = some worktime ∧
    dlookup (_addcomment id comment priv timestamp worktime bz_gid)
      "timestamp" = none ∧
    dlookup (_addcomment id comment priv timestamp worktime bz_gid)
      "bz_gid" = none ∧
    ∀ timestamp₂ bz_gid₂,
      _addcomment id comment priv timestamp worktime bz_gid =
        _addcomment id comment priv timestamp₂ worktime bz_gid₂ := by
  refine ⟨rfl, ?_, ?_, ?_, ?_, ?_, ?_, fun t g => rfl⟩ <;>
    simp [_addcomment, dlookup]

theorem extractFieldNames_ok (fields : List (List (String × PyVal)))
    (names : List PyVal) (h : extractFieldNames fields = .ok names) :
    _getbugfields fields = .ok (names ++ [.pstr "blockedby"]) := by
  unfold _getbugfields
  rw [h]

/-- Counterexample to C8 as stated: when the remote response itself lists a
field named `blockedby`, the returned sequence contains the string
`'blockedby'` twice, not exactly once. -/
theorem getbugfields_blockedby_cex :
    _getbugfields [[("name", PyVal.pstr "blockedby")]] =
      .ok [PyVal.pstr "blockedby", PyVal.pstr "blockedby"] ∧
    ¬ (([PyVal.pstr "blockedby", PyVal.pstr "blockedby"] :
        List PyVal).countP (fun v => pyEq v (.pstr "blockedby")) = 1) := by
  exact ⟨rfl, by decide⟩

/-- Claim C8, amended: `_getbugfields` returns the remote field names with
`'blockedby'` appended as the last element; whenever the remote names do
not themselves contain `'blockedby'`, the string occurs exactly once in the
result. -/
theorem getbugfields_blockedby (fields : List (List (String × PyVal)))
    (names : List PyVal) (h : extractFieldNames fields = .ok names) :
    _getbugfields fields = .ok (names ++ [PyVal.pstr "blockedby"]) ∧
    ((∀ n ∈ names, pyEq n (PyVal.pstr "blockedby") = false) →
       (names ++ [PyVal.pstr "blockedby"]).countP
         (fun v => pyEq v (PyVal.pstr "blockedby")) = 1) := by
  refine ⟨extractFieldNames_ok fields names h, ?_⟩
  intro hnone
  rw [List.countP_append]
  have h₀ : names.countP (fun v => pyEq v (.pstr "blockedby")) = 0 := by
    rw [List.countP_eq_zero]
    intro a ha
    simp [hnone a ha]
  have h₁ : ([PyVal.pstr "blockedby"] : List PyVal).countP
      (fun v => pyEq v (.pstr "blockedby")) = 1 := by decide
  rw [h₀, h₁]

/-- Witness for C8 (amended): a response with fields `a` and `b` yields
`['a', 'b', 'blockedby']` with one occurrence of `'blockedby'`. -/
theorem getbugfields_blockedby_witness :
    _getbugfields [[("name", PyVal.pstr "a")], [("name", PyVal.pstr "b")]] =
      .ok [PyVal.pstr "a", PyVal.pstr "b", PyVal.pstr "blockedby"] ∧
    ([PyVal.pstr "a", PyVal.pstr "b"] ++ [PyVal.pstr "blockedby"]).countP
      (fun v => pyEq v (.pstr "blockedby")) = 1 := by
  have h := getbugfields_blockedby
    [[("name", PyVal.pstr "a")], [("name", PyVal.pstr "b")]]
    [PyVal.pstr "a", PyVal.pstr "b"] rfl
  exact ⟨h.1, h.2 (by decide)⟩

end Bugzilla4
